import Mathlib

/-!
Verification of the `linear_algebra` repository (chapter-1 definitions).

The repository defines two numeric containers, `Complex<T>` and `List<T, N>`,
their arithmetic, and a compile-time capability system (marker traits
Commutative, Associative, Identity, Inverse, MulIdent, Distributive composed
into the blanket trait VectorSpace).  Two revisions of the file exist:
`definitions.rs` (the trait system; `MulInverse` computing `1/a, 1/b`) and
`definitions/mod.rs` (an earlier revision whose inherent `inverse` computes
`a/a/a, b/b/b`).

Modelling choices:
* `f64` is modelled by exact rational arithmetic (`ℚ`), written `F64` below.
  The spec's non-goals explicitly exclude floating-point precision from scope,
  and every claim here is about the symbolic structure of the operations.
* Rust arrays `[T; N]` are modelled as functions `Fin N → T`.
* Trait resolution (which `(V, F)` pairs satisfy `VectorSpace<F>`) is modelled
  by structural recursion over the closed universe of types that appear in the
  file (`f64`, `usize`, `isize`, `Complex<_>`, `List<_, _>`): each Boolean
  function below enumerates exactly the `impl` blocks of `definitions.rs`.
-/

namespace LinAlg

/-- `f64` modelled as exact rationals (floating-point rounding is out of the
spec's scope). -/
abbrev F64 : Type := ℚ

/-- `struct Complex<T> { a: T, b: T }` from both revisions. -/
structure Complex (T : Type) where
  a : T
  b : T
deriving DecidableEq

/-- `impl Add for Complex<T>`: component-wise sum. -/
instance instAddComplex (T : Type) [Add T] : Add (Complex T) where
  add x y := ⟨x.a + y.a, x.b + y.b⟩

/-- `impl Mul for Complex<T>`: complex product rule
`(a*c - b*d, a*d + b*c)`. -/
instance instMulComplex (T : Type) [Mul T] [Sub T] [Add T] : Mul (Complex T) where
  mul x y := ⟨x.a * y.a - x.b * y.b, x.a * y.b + x.b * y.a⟩

/-- `impl Neg for Complex<T>`: component-wise negation. -/
instance instNegComplex (T : Type) [Neg T] : Neg (Complex T) where
  neg x := ⟨-x.a, -x.b⟩

/-- `impl<T: Zero> Zero for Complex<T>`: `T::ZERO` in both components. -/
instance instZeroComplex (T : Type) [Zero T] : Zero (Complex T) where
  zero := ⟨0, 0⟩

/-- `impl<T: One> One for Complex<T>`: `T::ONE` in both components. -/
instance instOneComplex (T : Type) [One T] : One (Complex T) where
  one := ⟨1, 1⟩

/-- The `MulInverse` trait of `definitions.rs`. -/
class MulInverse (T : Type) where
  inverse : T → T

/-- `impl MulInverse for f64`: `1.0 / self`. -/
instance instMulInverseF64 : MulInverse F64 where
  inverse x := 1 / x

/-- `impl MulInverse for Complex<f64>` (`definitions.rs`): component-wise
`1.0 / self.a`, `1.0 / self.b`. -/
instance instMulInverseComplexF64 : MulInverse (Complex F64) where
  inverse x := ⟨1 / x.a, 1 / x.b⟩

/-- The inherent `Complex::inverse` of the earlier revision
(`definitions/mod.rs`): `a / a / a` and `b / b / b` component-wise. -/
def Complex.inverse {T : Type} [Div T] (x : Complex T) : Complex T :=
  ⟨x.a / x.a / x.a, x.b / x.b / x.b⟩

/-- `struct List<T, const N: usize> { elems: [T; N] }`, the array modelled as
a function `Fin N → T`. -/
structure List (T : Type) (N : Nat) where
  elems : Fin N → T

instance instDecidableEqList (T : Type) (N : Nat) [DecidableEq T] :
    DecidableEq (List T N) := fun u v =>
  decidable_of_iff (u.elems = v.elems) (by cases u; cases v; simp)

/-- `impl Add for List<T, N>`: the loop `*a = *a + b` over zipped elements,
i.e. the pairwise sum. -/
instance instAddList (T : Type) (N : Nat) [Add T] : Add (List T N) where
  add u v := ⟨fun i => u.elems i + v.elems i⟩

/-- `impl Neg for List<T, N>`: `self.elems.map(|x| -x)`. -/
instance instNegList (T : Type) (N : Nat) [Neg T] : Neg (List T N) where
  neg u := ⟨fun i => -u.elems i⟩

/-- `impl<T: Zero> Zero for List<T, N>`: `[T::ZERO; N]`. -/
instance instZeroList (T : Type) (N : Nat) [Zero T] : Zero (List T N) where
  zero := ⟨fun _ => 0⟩

/-- `impl<T: One> One for List<T, N>`: `[T::ONE; N]`. -/
instance instOneList (T : Type) (N : Nat) [One T] : One (List T N) where
  one := ⟨fun _ => 1⟩

/-- The `MulScalar<T>` trait of `definitions.rs`. -/
class MulScalar (V : Type) (T : Type) where
  mul : V → T → V

/-- `impl<T: Mul> MulScalar<T> for T`: the reflexive scalar multiplication. -/
instance instMulScalarRefl (T : Type) [Mul T] : MulScalar T T where
  mul a b := a * b

/-- `impl MulScalar<T> for List<T, N>`: `self.elems.map(|x| x * rhs)`. -/
instance instMulScalarList (T : Type) (N : Nat) [Mul T] : MulScalar (List T N) T where
  mul v s := ⟨fun i => v.elems i * s⟩

/-- `impl<Idx: SliceIndex<[T], Output = T>> Index<Idx> for List<T, N>` with a
`usize` position: the delegation to the slice's bounds-checked access, the
out-of-range panic modelled as `none`. -/
def List.index? {T : Type} {N : Nat} (v : List T N) (i : Nat) : Option T :=
  if h : i < N then some (v.elems ⟨i, h⟩) else none

/-! ### Trait resolution model

The closed universe of types the file works with, and one Boolean function per
trait, each clause transcribing one `impl` block of `definitions.rs` (std
impls for the primitives included).  Rust trait resolution over these blanket
impls is syntax-directed, so it is structural recursion over the type. -/

/-- The types appearing in `definitions.rs`: the annotated primitives and the
two generic wrappers. -/
inductive Ty : Type where
  | f64 : Ty
  | usize : Ty
  | isize : Ty
  | complex (t : Ty) : Ty
  | list (t : Ty) (n : Nat) : Ty
deriving DecidableEq, BEq

namespace Ty

/-- `Copy`: primitives are `Copy`; `Complex` and `List` derive it whenever the
component type is `Copy`. -/
def copy : Ty → Bool
  | .f64 | .usize | .isize => true
  | .complex t => copy t
  | .list t _ => copy t

/-- `Add<Output = Self>`: std impls for the primitives; `impl Add for
Complex<T> where T: Add<Output = T>`; `impl Add for List<T, N> where T:
Add<Output = T> + Copy`. -/
def hasAdd : Ty → Bool
  | .f64 | .usize | .isize => true
  | .complex t => hasAdd t
  | .list t _ => hasAdd t && copy t

/-- `Sub<Output = Self>`: std impls for the primitives only — `definitions.rs`
has no `Sub` impl for `Complex` or `List`. -/
def hasSub : Ty → Bool
  | .f64 | .usize | .isize => true
  | .complex _ => false
  | .list _ _ => false

/-- `Neg<Output = Self>`: std impls for `f64` and `isize` (not `usize`);
`impl Neg for Complex<T> where T: Neg<Output = T>`; `impl Neg for List<T, N>
where T: Neg<Output = T>`. -/
def hasNeg : Ty → Bool
  | .f64 => true
  | .usize => false
  | .isize => true
  | .complex t => hasNeg t
  | .list t _ => hasNeg t

/-- `Mul<Output = Self>`: std impls for the primitives; `impl Mul for
Complex<T> where T: Mul + Sub + Add + Copy`; no `Mul` impl for `List`. -/
def hasMul : Ty → Bool
  | .f64 | .usize | .isize => true
  | .complex t => hasMul t && hasSub t && hasAdd t && copy t
  | .list _ _ => false

/-- The `Zero` trait: impls for `usize`, `f64`, `isize`, `Complex<T> where T:
Zero`, `List<T, N> where T: Zero`. -/
def zero : Ty → Bool
  | .f64 | .usize | .isize => true
  | .complex t => zero t
  | .list t _ => zero t

/-- The `One` trait: impls for `usize`, `isize`, `f64`, `Complex<T> where T:
One`, `List<T, N> where T: One`. -/
def one : Ty → Bool
  | .f64 | .usize | .isize => true
  | .complex t => one t
  | .list t _ => one t

/-- `MulScalar<X>` for `V`: the reflexive `impl<T: Mul> MulScalar<T> for T`,
and `impl MulScalar<T> for List<T, N> where T: Mul + Copy`. -/
def mulScalar (v x : Ty) : Bool :=
  (v == x && hasMul x) ||
  (match v with
   | .list t _ => t == x && hasMul t && copy t
   | _ => false)

/-- The `Commutative` marker: `impl for f64`; `impl for Complex<T> where T:
Commutative`; `impl for List<T, N> where T: Commutative + Copy`. -/
def commutative : Ty → Bool
  | .f64 => true
  | .usize | .isize => false
  | .complex t => commutative t
  | .list t _ => commutative t && copy t

/-- The `Associative` marker: same impl pattern as `Commutative`. -/
def associative : Ty → Bool
  | .f64 => true
  | .usize | .isize => false
  | .complex t => associative t
  | .list t _ => associative t && copy t

/-- The `Identity` marker (additive identity): `impl for f64`; `impl for
Complex<T> where T: Identity`; `impl for List<T, N> where T: Identity +
Copy`. -/
def identity : Ty → Bool
  | .f64 => true
  | .usize | .isize => false
  | .complex t => identity t
  | .list t _ => identity t && copy t

/-- The `Inverse` marker (additive inverse): same impl pattern as
`Identity`. -/
def inverse : Ty → Bool
  | .f64 => true
  | .usize | .isize => false
  | .complex t => inverse t
  | .list t _ => inverse t && copy t

/-- `MulIdent<X>` for `V` (supertraits `MulScalar<X>` and `X: One`): the three
impls — `for Complex<T> where T: One, Self: MulScalar<T>`; `for T where T:
MulScalar<T> + One`; `for List<T, N> where T: One, Self: MulScalar<T>`. -/
def mulIdent (v x : Ty) : Bool :=
  one x &&
  ((match v with
    | .complex t => t == x && mulScalar v x
    | _ => false) ||
   (v == x && mulScalar x x) ||
   (match v with
    | .list t _ => t == x && mulScalar v x
    | _ => false))

/-- `Distributive<X>` for `V`: `impl Distributive<f64> for f64`; `impl
Distributive<X> for Complex<T> where Self: MulScalar<X>`; `impl
Distributive<X> for List<T, N> where Self: MulScalar<X>`. -/
def distributive (v x : Ty) : Bool :=
  match v with
  | .f64 => x == .f64
  | .usize | .isize => false
  | .complex _ => mulScalar v x
  | .list _ _ => mulScalar v x

/-- The blanket `impl<V, F> VectorSpace<F> for V` of `definitions.rs`: the
conjunction of the six capability bounds on `V` and `F: One`. -/
def vectorSpace (v f : Ty) : Bool :=
  commutative v && associative v && identity v && inverse v &&
    mulIdent v f && distributive v f && one f

end Ty

/-! ### Claims -/

/-- Unfolding lemma for the complex product. -/
theorem Complex.mul_def {T : Type} [Mul T] [Sub T] [Add T] (x y : Complex T) :
    x * y = ⟨x.a * y.a - x.b * y.b, x.a * y.b + x.b * y.a⟩ := rfl

/-- Unfolding lemma for the `One` constant of `Complex<T>`. -/
theorem Complex.one_def {T : Type} [One T] : (1 : Complex T) = ⟨1, 1⟩ := rfl

/-- C1: a type `V` satisfies `VectorSpace<F>` precisely when `V` holds all six
atomic capabilities — Commutative, Associative, Additive-Identity,
Additive-Inverse, Multiplicative-Identity over `F`, Distributive over `F` —
and `F` itself holds `One`; any pair meeting all constituents receives the
composite automatically (the three accepted pairs of the repository's test
are derived here with no extra facts). -/
theorem c1_vectorSpace_iff_capabilities :
    (∀ v f : Ty, Ty.vectorSpace v f = true ↔
      (Ty.commutative v = true ∧ Ty.associative v = true ∧ Ty.identity v = true ∧
       Ty.inverse v = true ∧ Ty.mulIdent v f = true ∧ Ty.distributive v f = true ∧
       Ty.one f = true)) ∧
    Ty.vectorSpace (.list .f64 3) .f64 = true ∧
    Ty.vectorSpace (.complex .f64) (.complex .f64) = true ∧
    Ty.vectorSpace .f64 .f64 = true := by
  refine ⟨fun v f => ?_, by decide, by decide, by decide⟩
  simp [Ty.vectorSpace, Bool.and_eq_true, and_assoc]

/-- C2: `Complex<f64>` does not satisfy `VectorSpace<f64>`: no `MulScalar<f64>`
impl covers `Complex<f64>`, hence no `MulIdent<f64>`, and the blanket
`VectorSpace` impl does not apply. -/
theorem c2_complexF64_not_vectorSpace_over_f64 :
    Ty.vectorSpace (.complex .f64) .f64 = false ∧
    Ty.mulIdent (.complex .f64) .f64 = false ∧
    Ty.mulScalar (.complex .f64) .f64 = false := by decide

/-- C3: the `MulInverse` impl for `Complex<f64>` (`definitions.rs`) is the
component-wise reciprocal: `inverse (a, b) = (1/a, 1/b)`, the multiplicative
identity divided by each component. -/
theorem c3_mulInverse_componentwise_reciprocal :
    ∀ x : Complex F64, MulInverse.inverse x = ⟨1 / x.a, 1 / x.b⟩ :=
  fun _ => rfl

/-- C4 counterexample: `Complex::<T>::ONE` is `(1, 1)`, and it is not a
multiplicative identity for the complex product: `(1, 2) * (1, 1) = (-1, 3)`,
not `(1, 2)`. -/
theorem c4_counterexample_one_not_identity :
    ¬ ((⟨1, 2⟩ : Complex F64) * 1 = ⟨1, 2⟩) := by
  have h : (⟨1, 2⟩ : Complex F64) * 1 = ⟨1 * 1 - 2 * 1, 1 * 1 + 2 * 1⟩ := rfl
  rw [h]
  norm_num [Complex.mk.injEq]

/-- C4 (amended): `Complex::<T>::ONE` places `T::ONE` in both components, and
multiplying by it gives `x * ONE = (a - b, a + b)` — it is not a
multiplicative identity for complex multiplication. -/
theorem c4_mul_by_one_constant :
    ∀ x : Complex F64,
      (1 : Complex F64) = ⟨1, 1⟩ ∧ x * 1 = ⟨x.a - x.b, x.a + x.b⟩ := by
  intro x
  refine ⟨rfl, ?_⟩
  show Complex.mk (x.a * 1 - x.b * 1) (x.a * 1 + x.b * 1) = _
  simp

/-- C5: complex multiplication follows the product rule
`(a, b) * (c, d) = (a*c - b*d, a*d + b*c)`; in particular
`(1, 2) * (3, 4) = (-5, 10)`. -/
theorem c5_complex_product_rule :
    (∀ a b c d : F64, (⟨a, b⟩ : Complex F64) * ⟨c, d⟩ =
      ⟨a * c - b * d, a * d + b * c⟩) ∧
    (⟨1, 2⟩ : Complex F64) * ⟨3, 4⟩ = ⟨-5, 10⟩ :=
  ⟨fun _ _ _ _ => rfl, by norm_num [Complex.mul_def, Complex.mk.injEq]⟩

/-- C6: wherever both components are nonzero (so that `a / a` is the
multiplicative identity), the earlier revision's `inverse` (`a/a/a`,
`definitions/mod.rs`) agrees with the later one (`1/a`, the `MulInverse` impl
of `definitions.rs`). -/
theorem c6_inverse_revisions_agree :
    ∀ x : Complex F64, x.a ≠ 0 → x.b ≠ 0 →
      x.inverse = MulInverse.inverse x := by
  intro x ha hb
  show Complex.mk (x.a / x.a / x.a) (x.b / x.b / x.b) = Complex.mk (1 / x.a) (1 / x.b)
  rw [div_self ha, div_self hb]

/-- C6 witness: the two revisions agree at `(2, 3)`. -/
theorem c6_inverse_revisions_agree_witness :
    (⟨2, 3⟩ : Complex F64).inverse = MulInverse.inverse (⟨2, 3⟩ : Complex F64) :=
  c6_inverse_revisions_agree ⟨2, 3⟩ (by norm_num) (by norm_num)

/-- C7: the identity constants are derived component-wise: `Complex<T>::ZERO`
is `(T::ZERO, T::ZERO)`, `Complex<T>::ONE` is `(T::ONE, T::ONE)`, and every
element of `List<T, N>::ZERO` / `List<T, N>::ONE` is `T::ZERO` / `T::ONE`. -/
theorem c7_identity_constants_componentwise (T : Type) [Zero T] [One T] (N : Nat) :
    (0 : Complex T) = ⟨0, 0⟩ ∧ (1 : Complex T) = ⟨1, 1⟩ ∧
    (∀ i : Fin N, (0 : List T N).elems i = 0) ∧
    (∀ i : Fin N, (1 : List T N).elems i = 1) :=
  ⟨rfl, rfl, fun _ => rfl, fun _ => rfl⟩

/-- C8: list addition is pairwise, and
`[1, 2, 3] + [10, 20, 30] = [11, 22, 33]`. -/
theorem c8_list_add_pairwise :
    (∀ (T : Type) [Add T] (N : Nat) (u v : List T N) (i : Fin N),
      (u + v).elems i = u.elems i + v.elems i) ∧
    (⟨![1, 2, 3]⟩ : List ℤ 3) + ⟨![10, 20, 30]⟩ = ⟨![11, 22, 33]⟩ :=
  ⟨fun _ _ _ _ _ _ => rfl, by decide⟩

/-- C9: list scalar multiplication multiplies every element by the scalar
(of the element's own type), and `[1, 1, 1] * 5 = [5, 5, 5]`. -/
theorem c9_list_scalar_mul :
    (∀ (T : Type) [Mul T] (N : Nat) (v : List T N) (s : T) (i : Fin N),
      (MulScalar.mul v s).elems i = v.elems i * s) ∧
    MulScalar.mul (⟨![1, 1, 1]⟩ : List ℤ 3) (5 : ℤ) = ⟨![5, 5, 5]⟩ :=
  ⟨fun _ _ _ _ _ _ => rfl, by decide⟩

/-- C10: indexing a `List<T, N>` at `i < N` returns the `i`-th element, and
any access outside `[0, N)` is a precondition violation (the panic of the
delegated bounds-checked slice access, modelled as `none`), never a
recoverable value. -/
theorem c10_index_bounds_contract (T : Type) (N : Nat) (v : List T N) (i : Nat) :
    (∀ h : i < N, v.index? i = some (v.elems ⟨i, h⟩)) ∧
    (N ≤ i → v.index? i = none) := by
  constructor
  · intro h
    simp [List.index?, h]
  · intro h
    rw [List.index?, dif_neg (by omega)]

/-- C10 witness: on `[10, 20, 30]`, index 1 yields 20 and index 5 is
out of bounds. -/
theorem c10_index_bounds_contract_witness :
    (⟨![10, 20, 30]⟩ : List ℤ 3).index? 1 = some 20 ∧
    (⟨![10, 20, 30]⟩ : List ℤ 3).index? 5 = none := by
  constructor
  · rw [(c10_index_bounds_contract ℤ 3 ⟨![10, 20, 30]⟩ 1).1 (by decide)]
    decide
  · exact (c10_index_bounds_contract ℤ 3 ⟨![10, 20, 30]⟩ 5).2 (by decide)

end LinAlg
